import Mathlib

/-!
Verification development for the open-xiaoai miGPT speaker bridge
(`examples/migpt/migpt/speaker.ts` and the engine file bundled with it).

The TypeScript source is shallowly embedded: strings are Lean `String`s,
JavaScript JSON values are the inductive `Json`, `JSON.parse` is modelled by
the executable parser `parseJson` (fuel-based structural recursion so that
concrete runs reduce inside the kernel), thrown exceptions are `Except.error`,
and `undefined`/absent values are `Option.none`.  The native bridge
(`RustServer.run_shell`) is out of process; its possible behaviours are the
inductive `BridgeOutcome`.
-/

/-! ## Text sanitizer (`removeThinkingTags`, speaker.ts lines 9-19)

The source runs two global regex replacements in order:
first `/<think>|<\/think>/g` (every lone delimiter is deleted), then
`/<think>[\s\S]*?<\/think>/g` (lazy pair spans).  Both passes are embedded as
left-to-right scanners over the character list, exactly mirroring how a JS
global regex consumes its input (on a match, scanning resumes after the
match; otherwise it advances one character). -/

/-- The characters of the opening delimiter. -/
def tagOpen : List Char := ['<', 't', 'h', 'i', 'n', 'k', '>']

/-- The characters of the closing delimiter. -/
def tagClose : List Char := ['<', '/', 't', 'h', 'i', 'n', 'k', '>']

/-- `isPre pat l` : does `l` start with `pat`? -/
def isPre : List Char → List Char → Bool
  | [], _ => true
  | _ :: _, [] => false
  | p :: ps, c :: cs => p == c && isPre ps cs

/-- First replacement pass: `text.replace(/<think>|<\/think>/g, "")`.
Fuel-based so that the recursion is structural; one unit of fuel is spent per
step and every step consumes at least one character, so `l.length` fuel is
always enough (`stripTags` below instantiates it that way). -/
def stripTagsF : Nat → List Char → List Char
  | 0, l => l
  | _ + 1, [] => []
  | f + 1, c :: cs =>
    if isPre tagOpen (c :: cs) then stripTagsF f (cs.drop 6)
    else if isPre tagClose (c :: cs) then stripTagsF f (cs.drop 7)
    else c :: stripTagsF f cs

def stripTags (l : List Char) : List Char := stripTagsF l.length l

/-- Scan for the first occurrence of `</think>`; return the suffix after it
(the JS lazy `[\s\S]*?` matches up to the nearest closing delimiter). -/
def afterClose : List Char → Option (List Char)
  | [] => none
  | c :: cs => if isPre tagClose (c :: cs) then some (cs.drop 7) else afterClose cs

/-- Second replacement pass: `result.replace(/<think>[\s\S]*?<\/think>/g, "")`.
A match starts at an occurrence of `<think>` and extends to the nearest
following `</think>`; with no closing delimiter the regex cannot match there
and scanning advances one character. -/
def stripPairsF : Nat → List Char → List Char
  | 0, l => l
  | _ + 1, [] => []
  | f + 1, c :: cs =>
    if isPre tagOpen (c :: cs) then
      match afterClose (cs.drop 6) with
      | some rest => stripPairsF f rest
      | none => c :: stripPairsF f cs
    else c :: stripPairsF f cs

def stripPairs (l : List Char) : List Char := stripPairsF l.length l

/-- `removeThinkingTags` (speaker.ts lines 9-19): empty input is returned
unchanged (`if (!text) return text`), otherwise both passes run in order. -/
def removeThinkingTags (text : String) : String :=
  if text = "" then text
  else String.mk (stripPairs (stripTags text.toList))

/-- Does `l` contain an occurrence of either delimiter? -/
def hasTag : List Char → Bool
  | [] => false
  | c :: cs => isPre tagOpen (c :: cs) || isPre tagClose (c :: cs) || hasTag cs

/-- Every occurrence of `<` in `l` begins a full occurrence of one of the two
delimiters.  Inputs of this shape cannot splice a fresh delimiter together
when a removal joins the surrounding fragments. -/
def wellTagged : List Char → Bool
  | [] => true
  | c :: cs =>
    (c != '<' || isPre tagOpen (c :: cs) || isPre tagClose (c :: cs)) && wellTagged cs

/-! ## JavaScript JSON values and `JSON.parse`

`Json` models the runtime values produced by `JSON.parse`.  Numbers are
restricted to integers (every numeric payload this system parses or emits —
` exit_code`, `save: 0`, `type: 1`, status codes — is an integer; fractional
and exponent literals are treated as parse failures).  Object fields keep
their textual order; duplicate keys are resolved at access time by
`lookupLast`, matching JS semantics where the last duplicate wins. -/

inductive Json where
  | null
  | bool (b : Bool)
  | num (n : Int)
  | str (s : String)
  | arr (xs : List Json)
  | obj (kvs : List (String × Json))

/-- JSON whitespace. -/
def jsonWs (c : Char) : Bool := c = ' ' || c = '\t' || c = '\n' || c = '\r'

def skipWs (l : List Char) : List Char := l.dropWhile jsonWs

/-- Prepend a decoded character to the result of parsing the rest of a JSON
string body. -/
def consStr (c : Char) (o : Option (List Char × List Char)) :
    Option (List Char × List Char) :=
  o.map fun p => (c :: p.1, p.2)

def hexVal (c : Char) : Option Nat :=
  if '0' ≤ c ∧ c ≤ '9' then some (c.toNat - 48)
  else if 'a' ≤ c ∧ c ≤ 'f' then some (c.toNat - 87)
  else if 'A' ≤ c ∧ c ≤ 'F' then some (c.toNat - 55)
  else none

/-- Body of a JSON string literal (after the opening quote): returns the
decoded characters and the input after the closing quote. -/
def parseStrBody : List Char → Option (List Char × List Char)
  | [] => none
  | '"' :: rest => some ([], rest)
  | '\\' :: '"' :: r => consStr '"' (parseStrBody r)
  | '\\' :: '\\' :: r => consStr '\\' (parseStrBody r)
  | '\\' :: '/' :: r => consStr '/' (parseStrBody r)
  | '\\' :: 'b' :: r => consStr '\x08' (parseStrBody r)
  | '\\' :: 'f' :: r => consStr '\x0c' (parseStrBody r)
  | '\\' :: 'n' :: r => consStr '\n' (parseStrBody r)
  | '\\' :: 'r' :: r => consStr '\r' (parseStrBody r)
  | '\\' :: 't' :: r => consStr '\t' (parseStrBody r)
  | '\\' :: 'u' :: h1 :: h2 :: h3 :: h4 :: r =>
    match hexVal h1, hexVal h2, hexVal h3, hexVal h4 with
    | some a, some b, some c, some d =>
      consStr (Char.ofNat (((a * 16 + b) * 16 + c) * 16 + d)) (parseStrBody r)
    | _, _, _, _ => none
  | '\\' :: _ => none
  | c :: rest => if c.toNat < 32 then none else consStr c (parseStrBody rest)

/-- A run of digits is a valid JSON integer part iff it is non-empty and has
no leading zero (except the single digit `0`). -/
def digitsOk : List Char → Bool
  | [] => false
  | ['0'] => true
  | '0' :: _ :: _ => false
  | _ => true

def digitsVal (ds : List Char) : Nat :=
  ds.foldl (fun n c => n * 10 + (c.toNat - 48)) 0

/-- JSON number literal (integers only, see the note on `Json`). -/
def parseNum (cs : List Char) : Option (Json × List Char) :=
  match cs with
  | '-' :: rest =>
    let ds := rest.takeWhile Char.isDigit
    if digitsOk ds then
      some (.num (-(Int.ofNat (digitsVal ds))), rest.dropWhile Char.isDigit)
    else none
  | _ =>
    let ds := cs.takeWhile Char.isDigit
    if digitsOk ds then
      some (.num (Int.ofNat (digitsVal ds)), cs.dropWhile Char.isDigit)
    else none

/-- Comma-separated array elements up to the closing bracket; the element
parser is passed in so the recursion stays structural on the fuel. -/
def parseElemsWith (pv : List Char → Option (Json × List Char)) :
    Nat → List Char → Option (List Json × List Char)
  | 0, _ => none
  | f + 1, cs =>
    match pv cs with
    | none => none
    | some (v, r) =>
      match skipWs r with
      | ',' :: r2 =>
        match parseElemsWith pv f r2 with
        | some (vs, r3) => some (v :: vs, r3)
        | none => none
      | ']' :: r2 => some ([v], r2)
      | _ => none

/-- Comma-separated object members up to the closing brace. -/
def parseMembersWith (pv : List Char → Option (Json × List Char)) :
    Nat → List Char → Option (List (String × Json) × List Char)
  | 0, _ => none
  | f + 1, cs =>
    match skipWs cs with
    | '"' :: rest =>
      match parseStrBody rest with
      | none => none
      | some (k, r) =>
        match skipWs r with
        | ':' :: r2 =>
          match pv r2 with
          | none => none
          | some (v, r3) =>
            match skipWs r3 with
            | ',' :: r4 =>
              match parseMembersWith pv f r4 with
              | some (ms, r5) => some ((String.mk k, v) :: ms, r5)
              | none => none
            | '\x7d' :: r4 => some ([(String.mk k, v)], r4)
            | _ => none
        | _ => none
    | _ => none

/-- One JSON value; returns the value and the remaining input. -/
def parseVal : Nat → List Char → Option (Json × List Char)
  | 0, _ => none
  | f + 1, cs =>
    match skipWs cs with
    | 'n' :: 'u' :: 'l' :: 'l' :: rest => some (.null, rest)
    | 't' :: 'r' :: 'u' :: 'e' :: rest => some (.bool true, rest)
    | 'f' :: 'a' :: 'l' :: 's' :: 'e' :: rest => some (.bool false, rest)
    | '"' :: rest =>
      match parseStrBody rest with
      | some (l, r) => some (.str (String.mk l), r)
      | none => none
    | '[' :: rest =>
      match skipWs rest with
      | ']' :: r2 => some (.arr [], r2)
      | r2 =>
        match parseElemsWith (parseVal f) f r2 with
        | some (vs, r3) => some (.arr vs, r3)
        | none => none
    | '\x7b' :: rest =>
      match skipWs rest with
      | '\x7d' :: r2 => some (.obj [], r2)
      | r2 =>
        match parseMembersWith (parseVal f) f r2 with
        | some (ms, r3) => some (.obj ms, r3)
        | none => none
    | c :: rest => if c = '-' || c.isDigit then parseNum (c :: rest) else none
    | [] => none

/-- `JSON.parse` on a whole string: `none` models a thrown `SyntaxError`.
`s.length + 1` fuel always suffices: each recursive level and each parsed
element consumes at least one character. -/
def parseJson (s : String) : Option Json :=
  match parseVal (s.length + 1) s.toList with
  | some (v, rest) =>
    match skipWs rest with
    | [] => some v
    | _ => none
  | none => none

/-! ## JavaScript value helpers

Small pieces of JS runtime semantics that the source relies on: property
access (`x.k`), optional chaining (`x?.k`), truthiness, and strict equality
against a string literal. -/

/-- Duplicate keys in a parsed object: the last one wins, as in JS. -/
def lookupLast : List (String × Json) → String → Option Json
  | [], _ => none
  | kv :: rest, key =>
    match lookupLast rest key with
    | some v => some v
    | none => if kv.1 = key then some kv.2 else none

/-- Plain property access `j.k` for the field names this program reads
(`event`, `data`, `NewLine`, `header`, `payload`, `results`, `is_final`,
`text`, `stdout`, ...): on a non-object it yields `undefined` (`none`).
Access on `null`/`undefined` throws in JS; every call site below models that
case separately before calling `getField`. -/
def getField (j : Json) (k : String) : Option Json :=
  match j with
  | .obj kvs => lookupLast kvs k
  | _ => none

/-- Optional-chained access `x?.k`: short-circuits on `undefined`/`null`. -/
def optField (v : Option Json) (k : String) : Option Json :=
  match v with
  | none => none
  | some .null => none
  | some j => getField j k

/-- Optional-chained index `x?.[0]`: array element, object property `"0"`,
or the first character of a string. -/
def optIndex0 : Option Json → Option Json
  | none => none
  | some .null => none
  | some (.arr (x :: _)) => some x
  | some (.arr []) => none
  | some (.obj kvs) => lookupLast kvs "0"
  | some (.str s) =>
    match s.toList with
    | c :: _ => some (.str (String.mk [c]))
    | [] => none
  | some _ => none

/-- JS truthiness of a JSON value. -/
def truthy : Json → Bool
  | .null => false
  | .bool b => b
  | .num n => n != 0
  | .str s => s != ""
  | .arr _ => true
  | .obj _ => true

/-- Truthiness where `none` is `undefined`. -/
def truthyOpt : Option Json → Bool
  | none => false
  | some v => truthy v

/-- Strict equality `v === "s"` of a possibly-undefined value against a
string literal. -/
def isStrV : Option Json → String → Bool
  | some (.str t), s => t == s
  | _, _ => false

mutual

/-- `String(x)` for an element of a JS array being joined by `toString`:
`null` becomes the empty string, nested arrays join recursively. -/
def arrElemStr : Json → String
  | .null => ""
  | .bool b => if b then "true" else "false"
  | .num n => toString n
  | .str s => s
  | .obj _ => "[object Object]"
  | .arr xs => String.intercalate "," (arrElemsStr xs)

def arrElemsStr : List Json → List String
  | [] => []
  | x :: xs => arrElemStr x :: arrElemsStr xs

end

/-- `jsonDecode` from `@mi-gpt/utils/parse` (an external dependency of this
file): `JSON.parse` wrapped in try/catch, returning `undefined` on any
exception.  Non-string arguments are first coerced by `String(·)`, whose
outcome is modelled per constructor (numbers and booleans re-parse to
themselves, objects coerce to the unparsable `"[object Object]"`, arrays
join their elements with commas). -/
def jsonDecodeJ : Json → Option Json
  | .str s => parseJson s
  | .num n => parseJson (toString n)
  | .bool b => some (.bool b)
  | .null => some .null
  | .obj _ => none
  | .arr xs => parseJson (String.intercalate "," (xs.map arrElemStr))

/-- `jsonDecode` applied to a possibly-undefined field
(`JSON.parse(undefined)` throws, so the wrapper yields `undefined`). -/
def jsonDecodeOpt : Option Json → Option Json
  | none => none
  | some j => jsonDecodeJ j

/-! ## Bridge client (`SpeakerManager.runShell`, speaker.ts lines 226-244)

`RustServer.run_shell(script, timeout)` is the out-of-process native bridge
(spec §6: it yields a JSON string or nothing, or the call fails/times out).
Its behaviour on one invocation is a `BridgeOutcome`; the bridge itself is a
function from script and timeout to an outcome. -/

/-- TypeScript `interface CommandResult` (speaker.ts lines 21-25). -/
structure CommandResult where
  stdout : String
  stderr : String
  exit_code : Int
deriving DecidableEq

/-- One call to the native bridge either rejects/times out (`failure`, the
awaited promise throws), resolves with no output (`absent`, a falsy result),
or resolves with the text `s`. -/
inductive BridgeOutcome where
  | failure
  | absent
  | output (s : String)

/-- `runShell` on a given bridge outcome:
`try { const res = await RustServer.run_shell(script, timeout);
       if (res) return JSON.parse(res); } catch (_) { return undefined; }`.
A rejection is caught, a falsy (`absent` or empty-string) result falls
through to `undefined`, invalid JSON throws inside the try and is caught,
and valid JSON resolves to the parsed value. -/
def runShell : BridgeOutcome → Option Json
  | .failure => none
  | .absent => none
  | .output s => if s = "" then none else parseJson s

/-- `runShell` with the script and timeout explicit: they are forwarded to
the bridge and do not otherwise influence the result.  (In the source the
timeout defaults to 10000 ms when the options object is omitted.) -/
def runShellScript (bridge : String → Nat → BridgeOutcome)
    (script : String) (timeoutMs : Nat) : Option Json :=
  runShell (bridge script timeoutMs)

/-- Reading a parsed JSON value at the declared `CommandResult` type: it must
be an object with string `stdout`, string `stderr` and numeric `exit_code`.
(The source performs no such check — `JSON.parse`'s result is returned at
type `CommandResult` unchecked; this definition names what "a valid
JSON-encoded CommandResult" means in the claims.) -/
def asCommandResult (j : Json) : Option CommandResult :=
  match getField j "stdout", getField j "stderr", getField j "exit_code" with
  | some (.str o), some (.str e), some (.num c) => some ⟨o, e, c⟩
  | _, _, _ => none

/-! ## Device probe and device info -/

def toLowerStr (s : String) : String := String.mk (s.toList.map Char.toLower)

/-- `pat` occurs as a contiguous substring of `l` (JS `String.includes`). -/
def listContains (pat : List Char) : List Char → Bool
  | [] => isPre pat []
  | c :: cs => isPre pat (c :: cs) || listContains pat cs

def strContains (s pat : String) : Bool := listContains pat.toList s.toList

/-- `SpeakerManager.isNewDevice` (speaker.ts lines 249-254), applied to the
result of `runShell("cat /proc/cpuinfo | grep Hardware | awk '...'")`:
`res?.stdout?.toLowerCase()?.includes("amlogic")`.  An absent result or a
missing/null `stdout` short-circuits to `undefined`, which is falsy — the
caller (`play`) treats it as the legacy dialect.  A non-string `stdout`
would make `.toLowerCase` undefined and the call would throw
(`Except.error`); that path needs a bridge that violates the CommandResult
convention. -/
def isNewDevice (res : Option Json) : Except Unit Bool :=
  match res with
  | none => .ok false
  | some .null => .ok false
  | some r =>
    match getField r "stdout" with
    | none => .ok false
    | some .null => .ok false
    | some (.str s) => .ok (strContains (toLowerStr s) "amlogic")
    | some _ => .error ()

/-- `{model, sn}` as returned by `getDevice`. -/
structure DeviceInfo where
  model : String
  sn : String
deriving DecidableEq

/-- JS `String.prototype.trim` whitespace (the characters relevant here). -/
def jsWs (c : Char) : Bool :=
  c = ' ' || c = '\t' || c = '\n' || c = '\r' || c = '\x0b' || c = '\x0c'

def trimStr (s : String) : String :=
  String.mk (((s.toList.dropWhile jsWs).reverse.dropWhile jsWs).reverse)

/-- JS `split(" ")` on a character list: note `"".split(" ")` is `[""]`, and
consecutive spaces produce empty fields — it is a split on the single space
character, not on whitespace runs. -/
def splitSp : List Char → List (List Char)
  | [] => [[]]
  | c :: cs =>
    if c = ' ' then [] :: splitSp cs
    else
      match splitSp cs with
      | t :: ts => (c :: t) :: ts
      | [] => [[c]]

def splitSpaces (s : String) : List String := (splitSp s.toList).map String.mk

/-- `SpeakerManager.getDevice` (speaker.ts lines 188-195), applied to the
result of `runShell("echo $(micocfg_model) $(micocfg_sn)")`:
`const info = res?.stdout.trim().split(" ");
 return { model: info?.[0] ?? "unknown", sn: info?.[1] ?? "unknown" }`.
Only the access on `res` is optional-chained: an absent or null result makes
`info` undefined and both fields default; a present result with a
missing/null/non-string `stdout` throws at `.trim()`.  `?? "unknown"`
replaces only a missing index (`undefined`), not an empty string. -/
def getDevice (res : Option Json) : Except Unit DeviceInfo :=
  match res with
  | none => .ok ⟨"unknown", "unknown"⟩
  | some .null => .ok ⟨"unknown", "unknown"⟩
  | some r =>
    match getField r "stdout" with
    | some (.str s) =>
      let info := splitSpaces (trimStr s)
      .ok ⟨(info[0]?).getD "unknown", (info[1]?).getD "unknown"⟩
    | some _ => .error ()
    | none => .error ()

/-! ## Event ingestion (`OpenXiaoAIEngine.onEvent`, engine file lines 319-350)

`onEvent` is registered as the bridge runtime's event callback.  Its effects
are the write to `OpenXiaoAISpeaker.status` and the message forwarded to
`this.onMessage` (the external conversational engine); both are returned,
with the prior status threaded through.  `randomUUID()` and `Date.now()` are
environment inputs and appear as the `uuid` and `now` parameters.  A thrown
exception (the handler has no try/catch) is `Except.error ()`. -/

/-- The speaker's cached playback status (`SpeakerManager.status`). -/
inductive SpeakerStatus where
  | idle
  | playing
  | paused
deriving DecidableEq

/-- The message object passed to `this.onMessage`:
`{ text, id: randomUUID(), sender: "user", timestamp: Date.now() }`.
`text` keeps its dynamic type (the source does not coerce it). -/
structure Utterance where
  text : Json
  id : String
  sender : String
  timestamp : Int

/-- The playback-status map:
`e.data === "Playing" ? "playing" : e.data === "Paused" ? "paused" : "idle"`. -/
def playingStatus (d : Option Json) : SpeakerStatus :=
  if isStrV d "Playing" then .playing
  else if isStrV d "Paused" then .paused
  else .idle

/-- The recognition-result filter inside the instruction branch:
`line?.header?.namespace === "SpeechRecognizer" &&
 line?.header?.name === "RecognizeResult" &&
 line?.payload?.is_final && line?.payload?.results?.[0]?.text`.
When the conjunction holds, the forwarded text is
`line.payload.results[0].text` (the unchained re-access equals the chained
one: a truthy chained result means every link was a real property). -/
def recognizedText (line : Option Json) : Option Json :=
  let t := optField (optIndex0 (optField (optField line "payload") "results")) "text"
  if isStrV (optField (optField line "header") "namespace") "SpeechRecognizer"
      && isStrV (optField (optField line "header") "name") "RecognizeResult"
      && truthyOpt (optField (optField line "payload") "is_final")
      && truthyOpt t
  then t else none

/-- `OpenXiaoAIEngine.onEvent` (engine file lines 319-350).
`const e = JSON.parse(event)` throws on invalid JSON; `e.event` throws when
`e` is `null`; in the instruction branch `e.data.NewLine` throws when
`e.data` is `undefined` or `null`.  The `kws` branch only logs.  Any other
shape falls through with no effect. -/
def onEvent (uuid : String) (now : Int) (prior : SpeakerStatus)
    (event : String) : Except Unit (SpeakerStatus × List Utterance) :=
  match parseJson event with
  | none => .error ()
  | some .null => .error ()
  | some e =>
    if isStrV (getField e "event") "playing" then
      .ok (playingStatus (getField e "data"), [])
    else if isStrV (getField e "event") "instruction" then
      match getField e "data" with
      | none => .error ()
      | some .null => .error ()
      | some d =>
        if truthyOpt (getField d "NewLine") then
          match recognizedText (jsonDecodeOpt (getField d "NewLine")) with
          | some t => .ok (prior, [⟨t, uuid, "user", now⟩])
          | none => .ok (prior, [])
        else .ok (prior, [])
    else if isStrV (getField e "event") "kws" then
      .ok (prior, [])
    else .ok (prior, [])

/-! ## Playback (`SpeakerManager.play`, speaker.ts lines 62-104)

`play` sanitizes the text, probes the device generation, and dispatches one
shell command whose syntax depends on the dialect.  The embedding below
captures the dispatched command string (the first argument of the single
`runShell` call `play` makes after the probe); the probe's truthy outcome is
the `newDevice` parameter. -/

/-- Hex digit for control-character escapes. -/
def hexDigit (n : Nat) : Char :=
  if n < 10 then Char.ofNat (48 + n) else Char.ofNat (87 + n)

/-- JSON string-literal escaping as performed by `JSON.stringify`. -/
def escapeChar (c : Char) : List Char :=
  if c = '"' then ['\\', '"']
  else if c = '\\' then ['\\', '\\']
  else if c = '\x08' then ['\\', 'b']
  else if c = '\x0c' then ['\\', 'f']
  else if c = '\n' then ['\\', 'n']
  else if c = '\r' then ['\\', 'r']
  else if c = '\t' then ['\\', 't']
  else if c.toNat < 32 then ['\\', 'u', '0', '0', hexDigit (c.toNat / 16), hexDigit (c.toNat % 16)]
  else [c]

/-- `JSON.stringify` of a string value (quotes included). -/
def strLit (s : String) : String :=
  String.mk ('"' :: (s.toList.map escapeChar).flatten ++ ['"'])

/-- `jsonEncode({ text, save: 0 })` from `@mi-gpt/utils/parse`
(`JSON.stringify`, insertion order, no spaces), specialised to the object
`play` builds for the legacy text-to-speech call. -/
def encodeTextSave (t : String) : String :=
  "ubus call mibrain text_to_speech '\x7b\"text\":" ++ strLit t ++ ",\"save\":0\x7d'"

/-- `jsonEncode({ url, type: 1 })` specialised to the legacy URL call. -/
def encodeUrlType (u : String) : String :=
  "ubus call mediaplayer player_play_url '\x7b\"url\":" ++ strLit u ++ ",\"type\":1\x7d'"

/-- `cleanText || "你好"`: the falsy empty string (and an absent text) fall
back to the default greeting. -/
def orGreet : Option String → String
  | some c => if c = "" then "你好" else c
  | none => "你好"

/-- The shell command `play` dispatches (speaker.ts lines 82-102), given the
device dialect, the optional text and the optional url.
`const cleanText = text ? removeThinkingTags(text) : text` — an empty or
absent text skips the sanitizer. -/
def playCommand (newDevice : Bool) (text : Option String)
    (url : Option String) : String :=
  let cleanText : Option String :=
    match text with
    | some t => if t = "" then some t else some (removeThinkingTags t)
    | none => none
  if newDevice then
    match url with
    | some u => "curl '" ++ u ++ "' | aplay -Dhw:0,0 -f S16_LE -c 1 -r 24000 -"
    | none => "/usr/sbin/tts_play.sh '" ++ orGreet cleanText ++ "'"
  else
    match url with
    | some u => encodeUrlType u
    | none => encodeTextSave (orGreet cleanText)

/-! ## Helper lemmas -/

set_option maxRecDepth 100000

theorem isPre_tagOpen_head (c : Char) (cs : List Char)
    (h : isPre tagOpen (c :: cs) = true) : c = '<' := by
  simp only [tagOpen, isPre, Bool.and_eq_true, beq_iff_eq] at h
  exact h.1.symm

theorem isPre_tagClose_head (c : Char) (cs : List Char)
    (h : isPre tagClose (c :: cs) = true) : c = '<' := by
  simp only [tagClose, isPre, Bool.and_eq_true, beq_iff_eq] at h
  exact h.1.symm

theorem wellTagged_tail (c : Char) (cs : List Char)
    (h : wellTagged (c :: cs) = true) : wellTagged cs = true := by
  simp only [wellTagged, Bool.and_eq_true] at h
  exact h.2

theorem wellTagged_head (c : Char) (cs : List Char)
    (h : wellTagged (c :: cs) = true) :
    c ≠ '<' ∨ isPre tagOpen (c :: cs) = true ∨ isPre tagClose (c :: cs) = true := by
  rw [wellTagged] at h
  have h1 := (Bool.and_eq_true _ _).mp h |>.1
  rcases (Bool.or_eq_true _ _).mp h1 with h' | h'
  · rcases (Bool.or_eq_true _ _).mp h' with h'' | h''
    · exact Or.inl (bne_iff_ne.mp h'')
    · exact Or.inr (Or.inl h'')
  · exact Or.inr (Or.inr h')

theorem wellTagged_drop : ∀ (n : Nat) (l : List Char),
    wellTagged l = true → wellTagged (l.drop n) = true := by
  intro n
  induction n with
  | zero => intro l h; simpa using h
  | succ n ih =>
    intro l h
    cases l with
    | nil => simpa using h
    | cons c cs => exact ih cs (wellTagged_tail c cs h)

theorem stripTagsF_no_lt : ∀ (f : Nat) (l : List Char),
    l.length ≤ f → wellTagged l = true → '<' ∉ stripTagsF f l := by
  intro f
  induction f with
  | zero =>
    intro l hl _
    cases l with
    | nil => simp [stripTagsF]
    | cons c cs => simp at hl
  | succ f ih =>
    intro l hl hw
    cases l with
    | nil => simp [stripTagsF]
    | cons c cs =>
      simp only [List.length_cons, Nat.add_le_add_iff_right] at hl
      by_cases h1 : isPre tagOpen (c :: cs) = true
      · have he : stripTagsF (f + 1) (c :: cs) = stripTagsF f (cs.drop 6) := by
          simp [stripTagsF, h1]
        rw [he]
        refine ih (cs.drop 6) ?_ (wellTagged_drop 6 cs (wellTagged_tail c cs hw))
        have := List.length_drop 6 cs
        omega
      · by_cases h2 : isPre tagClose (c :: cs) = true
        · have he : stripTagsF (f + 1) (c :: cs) = stripTagsF f (cs.drop 7) := by
            simp [stripTagsF, h1, h2]
          rw [he]
          refine ih (cs.drop 7) ?_ (wellTagged_drop 7 cs (wellTagged_tail c cs hw))
          have := List.length_drop 7 cs
          omega
        · have he : stripTagsF (f + 1) (c :: cs) = c :: stripTagsF f cs := by
            simp [stripTagsF, h1, h2]
          rw [he]
          intro hmem
          rcases List.mem_cons.mp hmem with h' | h'
          · rcases wellTagged_head c cs hw with hc | hc | hc
            · exact hc h'.symm
            · exact h1 hc
            · exact h2 hc
          · exact ih cs hl (wellTagged_tail c cs hw) h'

theorem isPre_false_of_ne_lt (c : Char) (cs : List Char) (hc : c ≠ '<') :
    isPre tagOpen (c :: cs) = false ∧ isPre tagClose (c :: cs) = false := by
  constructor
  · cases h : isPre tagOpen (c :: cs) with
    | false => rfl
    | true => exact absurd (isPre_tagOpen_head c cs h) hc
  · cases h : isPre tagClose (c :: cs) with
    | false => rfl
    | true => exact absurd (isPre_tagClose_head c cs h) hc

theorem hasTag_false_of_no_lt : ∀ l : List Char, '<' ∉ l → hasTag l = false := by
  intro l
  induction l with
  | nil => intro _; rfl
  | cons c cs ih =>
    intro h
    have hc : c ≠ '<' := fun hce => h (hce ▸ List.mem_cons_self c cs)
    have hcs : '<' ∉ cs := fun hm => h (List.mem_cons_of_mem c hm)
    rw [hasTag, (isPre_false_of_ne_lt c cs hc).1, (isPre_false_of_ne_lt c cs hc).2, ih hcs]
    rfl

theorem stripPairsF_id_of_no_lt : ∀ (f : Nat) (l : List Char),
    '<' ∉ l → stripPairsF f l = l := by
  intro f
  induction f with
  | zero => intro l _; rfl
  | succ f ih =>
    intro l h
    cases l with
    | nil => rfl
    | cons c cs =>
      have hc : c ≠ '<' := fun hce => h (hce ▸ List.mem_cons_self c cs)
      have hcs : '<' ∉ cs := fun hm => h (List.mem_cons_of_mem c hm)
      rw [stripPairsF, (isPre_false_of_ne_lt c cs hc).1]
      simp only [Bool.false_eq_true, if_false, ih cs hcs]

theorem hasTag_tail (c : Char) (cs : List Char) (h : hasTag (c :: cs) = false) :
    hasTag cs = false := by
  rw [hasTag] at h
  rcases Bool.or_eq_false_iff.mp h with ⟨_, h2⟩
  exact h2

theorem hasTag_head_open (c : Char) (cs : List Char) (h : hasTag (c :: cs) = false) :
    isPre tagOpen (c :: cs) = false := by
  rw [hasTag] at h
  exact (Bool.or_eq_false_iff.mp ((Bool.or_eq_false_iff.mp h).1)).1

theorem hasTag_head_close (c : Char) (cs : List Char) (h : hasTag (c :: cs) = false) :
    isPre tagClose (c :: cs) = false := by
  rw [hasTag] at h
  exact (Bool.or_eq_false_iff.mp ((Bool.or_eq_false_iff.mp h).1)).2

theorem stripTagsF_id_of_no_tag : ∀ (f : Nat) (l : List Char),
    hasTag l = false → stripTagsF f l = l := by
  intro f
  induction f with
  | zero => intro l _; rfl
  | succ f ih =>
    intro l h
    cases l with
    | nil => rfl
    | cons c cs =>
      rw [stripTagsF, hasTag_head_open c cs h, hasTag_head_close c cs h]
      simp only [Bool.false_eq_true, if_false, ih cs (hasTag_tail c cs h)]

theorem stripPairsF_id_of_no_tag : ∀ (f : Nat) (l : List Char),
    hasTag l = false → stripPairsF f l = l := by
  intro f
  induction f with
  | zero => intro l _; rfl
  | succ f ih =>
    intro l h
    cases l with
    | nil => rfl
    | cons c cs =>
      rw [stripPairsF, hasTag_head_open c cs h]
      simp only [Bool.false_eq_true, if_false, ih cs (hasTag_tail c cs h)]

theorem removeThinkingTags_id_of_no_tag (s : String)
    (h : hasTag s.toList = false) : removeThinkingTags s = s := by
  rw [removeThinkingTags]
  by_cases hs : s = ""
  · simp [hs]
  · simp only [hs, if_false]
    rw [stripTags, stripTagsF_id_of_no_tag _ _ h, stripPairs,
      stripPairsF_id_of_no_tag _ _ h]
    cases s
    rfl

theorem isStrV_true_elim (v : Option Json) (s : String) (h : isStrV v s = true) :
    v = some (.str s) := by
  cases v with
  | none => simp [isStrV] at h
  | some j =>
    cases j with
    | str t =>
      simp only [isStrV, beq_iff_eq] at h
      rw [h]
    | null => simp [isStrV] at h
    | bool b => simp [isStrV] at h
    | num n => simp [isStrV] at h
    | arr xs => simp [isStrV] at h
    | obj kvs => simp [isStrV] at h

theorem getField_obj (j : Json) (k : String) (v : Json)
    (h : getField j k = some v) : ∃ kvs, j = Json.obj kvs := by
  cases j with
  | obj kvs => exact ⟨kvs, rfl⟩
  | null => simp [getField] at h
  | bool b => simp [getField] at h
  | num n => simp [getField] at h
  | str t => simp [getField] at h
  | arr xs => simp [getField] at h

/-! ## Claims about the text sanitizer (C3, C8, C9) -/

/-- Claim C3 (code bug): the spec says sanitizing `"a<think>b</think>c"`
yields `"ac"` — delimiters *and* the enclosed content removed.  The code
strips all lone delimiters first, so the pair-with-content regex can no
longer match and the enclosed content survives: the actual result is
`"abc"`.  The comment in the source on the second replacement ("Remove tags
with content between them") shows the content removal was intended. -/
theorem removeThinkingTags_keeps_content :
    removeThinkingTags "a<think>b</think>c" = "abc" := by decide

/-- Claim C8, counterexample: deleting `<think>` from `"<th<think>ink>"`
splices the surrounding fragments into a fresh `<think>`, which the second
pass cannot remove (no closing delimiter); the output still contains the
delimiter substring. -/
theorem sanitize_tag_survives :
    removeThinkingTags "<th<think>ink>" = "<think>" ∧
    hasTag ("<think>".toList) = true := ⟨by decide, by decide⟩

/-- Claim C8 (amended): for every input in which each occurrence of `<`
begins a full delimiter occurrence (in particular every input whose
delimiters are intact, well-formed or lone), the sanitizer output contains
neither `<think>` nor `</think>`.  Without that restriction a removal can
splice a new delimiter out of fragments (see the counterexample). -/
theorem sanitize_wellTagged_clean (s : String)
    (h : wellTagged s.toList = true) :
    hasTag (removeThinkingTags s).toList = false := by
  rw [removeThinkingTags]
  by_cases hs : s = ""
  · subst hs; decide
  · simp only [hs, if_false]
    have hlt : '<' ∉ stripTags s.toList := stripTagsF_no_lt _ _ le_rfl h
    have h2 : stripPairs (stripTags s.toList) = stripTags s.toList :=
      stripPairsF_id_of_no_lt _ _ hlt
    show hasTag (String.toList (String.mk _)) = false
    rw [h2]
    exact hasTag_false_of_no_lt _ hlt

/-- Witness for C8: a string with a well-formed pair and a lone delimiter
satisfies the hypothesis, and its sanitized form is delimiter-free. -/
theorem sanitize_wellTagged_clean_witness :
    wellTagged ("a<think>b</think>c<think>d".toList) = true ∧
    hasTag (removeThinkingTags "a<think>b</think>c<think>d").toList = false :=
  ⟨by decide, sanitize_wellTagged_clean _ (by decide)⟩

/-- Claim C9, counterexample: sanitizing `"<th<think>ink>"` yields
`"<think>"`, and sanitizing again yields `""` — the sanitizer is not
idempotent on inputs where a removal splices a new delimiter. -/
theorem sanitize_not_idempotent :
    removeThinkingTags (removeThinkingTags "<th<think>ink>") ≠
      removeThinkingTags "<th<think>ink>" := by decide

/-- Claim C9 (amended): the sanitizer is idempotent on every input whose
sanitized output contains no delimiter occurrence (a second application of
either replacement pass then finds nothing to match). -/
theorem sanitize_idempotent_when_clean (s : String)
    (h : hasTag (removeThinkingTags s).toList = false) :
    removeThinkingTags (removeThinkingTags s) = removeThinkingTags s :=
  removeThinkingTags_id_of_no_tag _ h

/-- Witness for C9 at an ordinary tagged input. -/
theorem sanitize_idempotent_when_clean_witness :
    hasTag (removeThinkingTags "a<think>b</think>c").toList = false ∧
    removeThinkingTags (removeThinkingTags "a<think>b</think>c") =
      removeThinkingTags "a<think>b</think>c" :=
  ⟨by decide, sanitize_idempotent_when_clean _ (by decide)⟩

/-! ## Claim about the bridge client (C1) -/

/-- Claim C1, counterexample: a bridge that resolves with the text `"5"` —
valid JSON, but not a JSON-encoded CommandResult — makes `runShell` resolve
to the parsed value `5` rather than to an absent result, so a non-absent
resolution is *not* restricted to valid CommandResult encodings (the source
returns `JSON.parse(res)` unchecked). -/
theorem runShell_nonresult_value :
    runShellScript (fun _ _ => .output "5") "getprop" 10000 = some (Json.num 5) ∧
    asCommandResult (Json.num 5) = none := ⟨rfl, rfl⟩

/-- Claim C1 (amended): for every script, timeout and bridge behaviour,
`runShell` never throws (every failure is caught and becomes an absent
result): a rejected or timed-out bridge call, an absent or empty result and
text that is not valid JSON all resolve to `none`; non-empty valid JSON text
resolves to the parsed value — when that text encodes a CommandResult, to
the parsed `{stdout, stderr, exit_code}` — and a non-absent resolution
arises only from such text. -/
theorem runShell_amended_spec (bridge : String → Nat → BridgeOutcome)
    (script : String) (timeoutMs : Nat) :
    (bridge script timeoutMs = .failure →
      runShellScript bridge script timeoutMs = none) ∧
    (bridge script timeoutMs = .absent →
      runShellScript bridge script timeoutMs = none) ∧
    (∀ s, bridge script timeoutMs = .output s → parseJson s = none →
      runShellScript bridge script timeoutMs = none) ∧
    (∀ s v, bridge script timeoutMs = .output s → parseJson s = some v →
      runShellScript bridge script timeoutMs = some v) ∧
    (∀ v, runShellScript bridge script timeoutMs = some v →
      ∃ s, bridge script timeoutMs = .output s ∧ s ≠ "" ∧ parseJson s = some v) := by
  refine ⟨?_, ?_, ?_, ?_, ?_⟩
  · intro h; rw [runShellScript, h]; rfl
  · intro h; rw [runShellScript, h]; rfl
  · intro s h hp
    rw [runShellScript, h, runShell]
    by_cases hs : s = ""
    · simp [hs]
    · simp [hs, hp]
  · intro s v h hp
    have hs : s ≠ "" := by
      intro he
      rw [he] at hp
      exact Option.noConfusion ((rfl : parseJson "" = none) ▸ hp)
    rw [runShellScript, h, runShell]
    simp [hs, hp]
  · intro v h
    cases hb : bridge script timeoutMs with
    | failure => rw [runShellScript, hb] at h; exact Option.noConfusion h
    | absent => rw [runShellScript, hb] at h; exact Option.noConfusion h
    | output s =>
      rw [runShellScript, hb, runShell] at h
      by_cases hs : s = ""
      · rw [if_pos hs] at h; exact Option.noConfusion h
      · rw [if_neg hs] at h; exact ⟨s, rfl, hs, h⟩

/-- Witness for C1: a conforming bridge response parses to the CommandResult
object, and `runShell` resolves to exactly that value. -/
theorem runShell_amended_spec_witness :
    runShellScript
        (fun _ _ => .output "\x7b\"stdout\":\"ok\",\"stderr\":\"\",\"exit_code\":0\x7d")
        "echo ok" 10000 =
      some (Json.obj
        [("stdout", Json.str "ok"), ("stderr", Json.str ""), ("exit_code", Json.num 0)]) ∧
    asCommandResult (Json.obj
        [("stdout", Json.str "ok"), ("stderr", Json.str ""), ("exit_code", Json.num 0)]) =
      some ⟨"ok", "", 0⟩ :=
  ⟨(runShell_amended_spec
      (fun _ _ => .output "\x7b\"stdout\":\"ok\",\"stderr\":\"\",\"exit_code\":0\x7d")
      "echo ok" 10000).2.2.2.1
    "\x7b\"stdout\":\"ok\",\"stderr\":\"\",\"exit_code\":0\x7d"
    (Json.obj [("stdout", Json.str "ok"), ("stderr", Json.str ""), ("exit_code", Json.num 0)])
    rfl rfl, rfl⟩

/-! ## Claim about the device probe (C6) -/

/-- Claim C6 (confirmed): with a CommandResult whose `stdout` is a string
`s`, `isNewDevice` resolves to exactly the boolean "the lower-cased `s`
contains the vendor marker `amlogic`"; with an absent probe result it
resolves `false` (undefined is falsy), so `play` selects the legacy command
dialect. -/
theorem isNewDevice_marker :
    (∀ r s, getField r "stdout" = some (.str s) →
      isNewDevice (some r) = .ok (strContains (toLowerStr s) "amlogic")) ∧
    isNewDevice none = .ok false := by
  refine ⟨?_, rfl⟩
  intro r s h
  obtain ⟨kvs, rfl⟩ := getField_obj r "stdout" (.str s) h
  simp only [isNewDevice]
  rw [h]

/-- Witness for C6: an Amlogic hardware string is classified new-generation
(the containment check evaluates to `true`). -/
theorem isNewDevice_marker_witness :
    isNewDevice (some (Json.obj [("stdout", Json.str "Amlogic T931")])) =
      .ok (strContains (toLowerStr "Amlogic T931") "amlogic") ∧
    strContains (toLowerStr "Amlogic T931") "amlogic" = true :=
  ⟨isNewDevice_marker.1 (Json.obj [("stdout", Json.str "Amlogic T931")]) "Amlogic T931" rfl,
    rfl⟩

/-! ## Claim about getDevice (C7) -/

/-- Claim C7, counterexample: on an *empty* `stdout` the model is the empty
string, not `"unknown"`: `"".trim().split(" ")` is `[""]`, whose element 0
is `""`, and `?? "unknown"` replaces only a missing value, never an empty
string.  Only the serial (index 1, actually missing) defaults. -/
theorem getDevice_empty_stdout :
    getDevice (some (Json.obj [("stdout", Json.str "")])) = .ok ⟨"", "unknown"⟩ ∧
    ("" : String) ≠ "unknown" := ⟨rfl, by decide⟩

/-- Claim C7 (amended): `getDevice` splits the trimmed `stdout` on single
spaces and takes elements 0 and 1 as model and serial, defaulting a *missing*
element to `"unknown"`: on `"model123 SN456"` it returns
`{model123, SN456}`; both fields are `"unknown"` when the command result
itself is absent; on empty `stdout` the model is the empty string (the
split of an empty string still has element 0) and only the serial
defaults. -/
theorem getDevice_amended_spec :
    getDevice (some (Json.obj [("stdout", Json.str "model123 SN456")])) =
      .ok ⟨"model123", "SN456"⟩ ∧
    getDevice none = .ok ⟨"unknown", "unknown"⟩ ∧
    (∀ r s, getField r "stdout" = some (.str s) →
      getDevice (some r) =
        .ok ⟨((splitSpaces (trimStr s))[0]?).getD "unknown",
             ((splitSpaces (trimStr s))[1]?).getD "unknown"⟩) := by
  refine ⟨rfl, rfl, ?_⟩
  intro r s h
  obtain ⟨kvs, rfl⟩ := getField_obj r "stdout" (.str s) h
  simp only [getDevice]
  rw [h]

/-- Witness for C7: a padded two-token output is trimmed and split. -/
theorem getDevice_amended_spec_witness :
    getDevice (some (Json.obj [("stdout", Json.str " a b ")])) =
      .ok ⟨((splitSpaces (trimStr " a b "))[0]?).getD "unknown",
           ((splitSpaces (trimStr " a b "))[1]?).getD "unknown"⟩ ∧
    ((splitSpaces (trimStr " a b "))[0]?).getD "unknown" = "a" ∧
    ((splitSpaces (trimStr " a b "))[1]?).getD "unknown" = "b" :=
  ⟨getDevice_amended_spec.2.2 (Json.obj [("stdout", Json.str " a b ")]) " a b " rfl,
    rfl, rfl⟩

/-! ## Claim about the default greeting (C10) -/

/-- Claim C10 (confirmed): when `play` is called without a url and the text
is absent or sanitizes to the empty string, the dispatched command speaks
the default greeting `你好` — `cleanText || "你好"` replaces the falsy empty
string — on both the new-generation dialect (`tts_play.sh`) and the legacy
dialect (`ubus ... text_to_speech`). -/
theorem playCommand_default_greeting (nd : Bool) (text : Option String)
    (h : text = none ∨ ∃ t, text = some t ∧ removeThinkingTags t = "") :
    playCommand nd text none =
      if nd then "/usr/sbin/tts_play.sh '你好'"
      else "ubus call mibrain text_to_speech '\x7b\"text\":\"你好\",\"save\":0\x7d'" := by
  rcases h with h | ⟨t, ht, hrt⟩
  · subst h; cases nd <;> rfl
  · subst ht
    by_cases h0 : t = ""
    · subst h0; cases nd <;> rfl
    · have hcmd : playCommand nd (some t) none = playCommand nd (some "") none := by
        rw [playCommand, playCommand]
        simp only [h0, if_false, hrt, if_true]
      rw [hcmd]; cases nd <;> rfl

/-- Witness for C10: a text that sanitizes to the empty string yields the
greeting on the new dialect, and an absent text yields it on the legacy
dialect. -/
theorem playCommand_default_greeting_witness :
    playCommand true (some "<think>") none = "/usr/sbin/tts_play.sh '你好'" ∧
    playCommand false none none =
      "ubus call mibrain text_to_speech '\x7b\"text\":\"你好\",\"save\":0\x7d'" :=
  ⟨playCommand_default_greeting true (some "<think>")
      (Or.inr ⟨"<think>", rfl, by decide⟩),
    playCommand_default_greeting false none (Or.inl rfl)⟩

/-! ## Claims about event ingestion (C2, C4, C5) -/

/-- Claim C2, counterexample: an event string that is not valid JSON makes
`JSON.parse` throw, and `onEvent` has no try/catch — the handler throws
instead of silently ignoring the event. -/
theorem onEvent_invalid_json_throws :
    onEvent "u" 0 SpeakerStatus.idle "oops" = .error () := rfl

/-- Claim C2 (amended): `onEvent` throws on input strings that are not valid
JSON, on the JSON literal `null` (reading `e.event` of `null` throws), and
on instruction events whose `data` is absent or `null` (reading
`e.data.NewLine` throws).  Every *other* unrecognized event shape is
silently ignored — the handler returns with the cached status unchanged and
forwards nothing: events whose kind is neither `playing` nor `instruction`,
and instruction events with present non-null data whose `NewLine` payload is
missing or falsy, fails to decode, or decodes to a value failing the
recognition filter (`recognizedText`, which is `none` in exactly those
cases). -/
theorem onEvent_amended_spec (uuid : String) (now : Int) (prior : SpeakerStatus)
    (s : String) :
    (parseJson s = none → onEvent uuid now prior s = .error ()) ∧
    (parseJson s = some .null → onEvent uuid now prior s = .error ()) ∧
    (∀ e, parseJson s = some e →
      isStrV (getField e "event") "instruction" = true →
      (getField e "data" = none ∨ getField e "data" = some .null) →
      onEvent uuid now prior s = .error ()) ∧
    (∀ e, parseJson s = some e → e ≠ .null →
      isStrV (getField e "event") "playing" = false →
      isStrV (getField e "event") "instruction" = false →
      onEvent uuid now prior s = .ok (prior, [])) ∧
    (∀ e d, parseJson s = some e →
      isStrV (getField e "event") "instruction" = true →
      getField e "data" = some d → d ≠ .null →
      recognizedText (jsonDecodeOpt (getField d "NewLine")) = none →
      onEvent uuid now prior s = .ok (prior, [])) := by
  refine ⟨?_, ?_, ?_, ?_, ?_⟩
  · intro h; simp [onEvent, h]
  · intro h; simp [onEvent, h]
  · intro e h hinstr hd
    have hev := isStrV_true_elim _ _ hinstr
    obtain ⟨kvs, rfl⟩ := getField_obj e "event" (.str "instruction") hev
    have hpl : isStrV (getField (Json.obj kvs) "event") "playing" = false := by
      rw [hev]; rfl
    rcases hd with hd | hd
    · simp [onEvent, h, hpl, hinstr, hd]
    · simp [onEvent, h, hpl, hinstr, hd]
  · intro e h hne h1 h2
    cases e with
    | null => exact absurd rfl hne
    | bool b => simp [onEvent, h, h1, h2]
    | num n => simp [onEvent, h, h1, h2]
    | str t => simp [onEvent, h, h1, h2]
    | arr xs => simp [onEvent, h, h1, h2]
    | obj kvs => simp [onEvent, h, h1, h2]
  · intro e d hp hinstr hdata hdne hrec
    have hev := isStrV_true_elim _ _ hinstr
    obtain ⟨kvs, rfl⟩ := getField_obj e "event" (.str "instruction") hev
    cases d with
    | null => exact absurd rfl hdne
    | bool b => simp [onEvent, hp, hev, hdata, hrec, isStrV]
    | num n => simp [onEvent, hp, hev, hdata, hrec, isStrV]
    | str t => simp [onEvent, hp, hev, hdata, hrec, isStrV]
    | arr xs => simp [onEvent, hp, hev, hdata, hrec, isStrV]
    | obj kvs2 => simp [onEvent, hp, hev, hdata, hrec, isStrV]

/-- Witness for C2: an unknown event kind is ignored with the status kept;
an instruction event with no `data` field throws; an instruction event with
an empty data object (no `NewLine`) and one whose `NewLine` is not valid
JSON are both ignored with the status kept and nothing forwarded. -/
theorem onEvent_amended_spec_witness :
    onEvent "u" 0 SpeakerStatus.paused "\x7b\"event\":\"mystery\",\"data\":1\x7d" =
      .ok (SpeakerStatus.paused, []) ∧
    onEvent "u" 0 SpeakerStatus.paused "\x7b\"event\":\"instruction\"\x7d" =
      .error () ∧
    onEvent "u" 0 SpeakerStatus.paused
      "\x7b\"event\":\"instruction\",\"data\":\x7b\x7d\x7d" =
      .ok (SpeakerStatus.paused, []) ∧
    onEvent "u" 0 SpeakerStatus.paused
      "\x7b\"event\":\"instruction\",\"data\":\x7b\"NewLine\":\"not json\"\x7d\x7d" =
      .ok (SpeakerStatus.paused, []) :=
  ⟨(onEvent_amended_spec "u" 0 SpeakerStatus.paused
        "\x7b\"event\":\"mystery\",\"data\":1\x7d").2.2.2.1
      (Json.obj [("event", Json.str "mystery"), ("data", Json.num 1)])
      rfl (fun h => Json.noConfusion h) rfl rfl,
    (onEvent_amended_spec "u" 0 SpeakerStatus.paused
        "\x7b\"event\":\"instruction\"\x7d").2.2.1
      (Json.obj [("event", Json.str "instruction")])
      rfl rfl (Or.inl rfl),
    (onEvent_amended_spec "u" 0 SpeakerStatus.paused
        "\x7b\"event\":\"instruction\",\"data\":\x7b\x7d\x7d").2.2.2.2
      (Json.obj [("event", Json.str "instruction"), ("data", Json.obj [])])
      (Json.obj [])
      rfl rfl rfl (fun h => Json.noConfusion h) rfl,
    (onEvent_amended_spec "u" 0 SpeakerStatus.paused
        "\x7b\"event\":\"instruction\",\"data\":\x7b\"NewLine\":\"not json\"\x7d\x7d").2.2.2.2
      (Json.obj [("event", Json.str "instruction"),
        ("data", Json.obj [("NewLine", Json.str "not json")])])
      (Json.obj [("NewLine", Json.str "not json")])
      rfl rfl rfl (fun h => Json.noConfusion h) rfl⟩

/-- Claim C4 (confirmed): a playing event with data `"Playing"` sets the
cached status to `playing`, with `"Paused"` to `paused`, and with any other
data value (including a missing one) to `idle`; the write happens whatever
the prior status was. -/
theorem onEvent_playing_status (uuid : String) (now : Int) (prior : SpeakerStatus) :
    onEvent uuid now prior "\x7b\"event\":\"playing\",\"data\":\"Playing\"\x7d" =
      .ok (.playing, []) ∧
    onEvent uuid now prior "\x7b\"event\":\"playing\",\"data\":\"Paused\"\x7d" =
      .ok (.paused, []) ∧
    (∀ s e, parseJson s = some e →
      isStrV (getField e "event") "playing" = true →
      isStrV (getField e "data") "Playing" = false →
      isStrV (getField e "data") "Paused" = false →
      onEvent uuid now prior s = .ok (.idle, [])) := by
  refine ⟨rfl, rfl, ?_⟩
  intro s e h hev h1 h2
  have hev' := isStrV_true_elim _ _ hev
  obtain ⟨kvs, rfl⟩ := getField_obj e "event" (.str "playing") hev'
  simp [onEvent, h, hev, playingStatus, h1, h2]

/-- Witness for C4: a playing event with the unrecognized data `"Stopped"`
overwrites a `playing` status with `idle`. -/
theorem onEvent_playing_status_witness :
    onEvent "u" 0 SpeakerStatus.playing
      "\x7b\"event\":\"playing\",\"data\":\"Stopped\"\x7d" =
      .ok (SpeakerStatus.idle, []) :=
  (onEvent_playing_status "u" 0 SpeakerStatus.playing).2.2
    "\x7b\"event\":\"playing\",\"data\":\"Stopped\"\x7d"
    (Json.obj [("event", Json.str "playing"), ("data", Json.str "Stopped")])
    rfl rfl rfl rfl

/-- Claim C5 (confirmed): an instruction event whose decoded `NewLine`
payload is a `SpeechRecognizer`/`RecognizeResult` header with
`payload.is_final` true and a non-empty `results[0].text` forwards exactly
one message — that text, sender `"user"` — to the engine's `onMessage`;
the same event with `is_final` false forwards none. -/
theorem onEvent_instruction_forwarding (uuid : String) (now : Int)
    (prior : SpeakerStatus) :
    (∀ s e d nl line t,
      parseJson s = some e →
      getField e "event" = some (.str "instruction") →
      getField e "data" = some d →
      getField d "NewLine" = some (.str nl) →
      nl ≠ "" →
      parseJson nl = some line →
      optField (optField (some line) "header") "namespace" =
        some (.str "SpeechRecognizer") →
      optField (optField (some line) "header") "name" =
        some (.str "RecognizeResult") →
      optField (optField (some line) "payload") "is_final" = some (.bool true) →
      optField (optIndex0 (optField (optField (some line) "payload") "results"))
        "text" = some (.str t) →
      t ≠ "" →
      onEvent uuid now prior s = .ok (prior, [⟨.str t, uuid, "user", now⟩])) ∧
    (∀ s e d nl line,
      parseJson s = some e →
      getField e "event" = some (.str "instruction") →
      getField e "data" = some d →
      getField d "NewLine" = some (.str nl) →
      nl ≠ "" →
      parseJson nl = some line →
      optField (optField (some line) "payload") "is_final" = some (.bool false) →
      onEvent uuid now prior s = .ok (prior, [])) := by
  constructor
  · intro s e d nl line t hp hev hdata hnl hne hline hns hname hfin htext hte
    obtain ⟨kvs, rfl⟩ := getField_obj e "event" (.str "instruction") hev
    obtain ⟨kvs2, rfl⟩ := getField_obj d "NewLine" (.str nl) hnl
    simp [onEvent, hp, hev, hdata, hnl, truthyOpt, truthy, hne,
      jsonDecodeOpt, jsonDecodeJ, hline, recognizedText, hns, hname, hfin, htext,
      hte, isStrV]
  · intro s e d nl line hp hev hdata hnl hne hline hfin
    obtain ⟨kvs, rfl⟩ := getField_obj e "event" (.str "instruction") hev
    obtain ⟨kvs2, rfl⟩ := getField_obj d "NewLine" (.str nl) hnl
    simp [onEvent, hp, hev, hdata, hnl, truthyOpt, truthy, hne,
      jsonDecodeOpt, jsonDecodeJ, hline, recognizedText, hfin, isStrV]

/-- Witness for C5: the spec's example — a final recognition of
"turn on the light" forwards exactly one user message with that text, and
the same event marked non-final forwards none. -/
theorem onEvent_instruction_forwarding_witness :
    onEvent "u" 7 SpeakerStatus.paused
      "\x7b\"event\":\"instruction\",\"data\":\x7b\"NewLine\":\"\x7b\\\"header\\\":\x7b\\\"namespace\\\":\\\"SpeechRecognizer\\\",\\\"name\\\":\\\"RecognizeResult\\\"\x7d,\\\"payload\\\":\x7b\\\"is_final\\\":true,\\\"results\\\":[\x7b\\\"text\\\":\\\"turn on the light\\\"\x7d]\x7d\x7d\"\x7d\x7d" =
      .ok (SpeakerStatus.paused,
        [⟨Json.str "turn on the light", "u", "user", 7⟩]) ∧
    onEvent "u" 7 SpeakerStatus.paused
      "\x7b\"event\":\"instruction\",\"data\":\x7b\"NewLine\":\"\x7b\\\"header\\\":\x7b\\\"namespace\\\":\\\"SpeechRecognizer\\\",\\\"name\\\":\\\"RecognizeResult\\\"\x7d,\\\"payload\\\":\x7b\\\"is_final\\\":false,\\\"results\\\":[\x7b\\\"text\\\":\\\"turn on the light\\\"\x7d]\x7d\x7d\"\x7d\x7d" =
      .ok (SpeakerStatus.paused, []) :=
  ⟨(onEvent_instruction_forwarding "u" 7 SpeakerStatus.paused).1
      "\x7b\"event\":\"instruction\",\"data\":\x7b\"NewLine\":\"\x7b\\\"header\\\":\x7b\\\"namespace\\\":\\\"SpeechRecognizer\\\",\\\"name\\\":\\\"RecognizeResult\\\"\x7d,\\\"payload\\\":\x7b\\\"is_final\\\":true,\\\"results\\\":[\x7b\\\"text\\\":\\\"turn on the light\\\"\x7d]\x7d\x7d\"\x7d\x7d"
      (Json.obj [("event", Json.str "instruction"),
        ("data", Json.obj [("NewLine", Json.str
          "\x7b\"header\":\x7b\"namespace\":\"SpeechRecognizer\",\"name\":\"RecognizeResult\"\x7d,\"payload\":\x7b\"is_final\":true,\"results\":[\x7b\"text\":\"turn on the light\"\x7d]\x7d\x7d")])])
      (Json.obj [("NewLine", Json.str
        "\x7b\"header\":\x7b\"namespace\":\"SpeechRecognizer\",\"name\":\"RecognizeResult\"\x7d,\"payload\":\x7b\"is_final\":true,\"results\":[\x7b\"text\":\"turn on the light\"\x7d]\x7d\x7d")])
      "\x7b\"header\":\x7b\"namespace\":\"SpeechRecognizer\",\"name\":\"RecognizeResult\"\x7d,\"payload\":\x7b\"is_final\":true,\"results\":[\x7b\"text\":\"turn on the light\"\x7d]\x7d\x7d"
      (Json.obj [("header", Json.obj [("namespace", Json.str "SpeechRecognizer"),
          ("name", Json.str "RecognizeResult")]),
        ("payload", Json.obj [("is_final", Json.bool true),
          ("results", Json.arr [Json.obj [("text", Json.str "turn on the light")]])])])
      "turn on the light"
      rfl rfl rfl rfl (by decide) rfl rfl rfl rfl rfl (by decide),
    (onEvent_instruction_forwarding "u" 7 SpeakerStatus.paused).2
      "\x7b\"event\":\"instruction\",\"data\":\x7b\"NewLine\":\"\x7b\\\"header\\\":\x7b\\\"namespace\\\":\\\"SpeechRecognizer\\\",\\\"name\\\":\\\"RecognizeResult\\\"\x7d,\\\"payload\\\":\x7b\\\"is_final\\\":false,\\\"results\\\":[\x7b\\\"text\\\":\\\"turn on the light\\\"\x7d]\x7d\x7d\"\x7d\x7d"
      (Json.obj [("event", Json.str "instruction"),
        ("data", Json.obj [("NewLine", Json.str
          "\x7b\"header\":\x7b\"namespace\":\"SpeechRecognizer\",\"name\":\"RecognizeResult\"\x7d,\"payload\":\x7b\"is_final\":false,\"results\":[\x7b\"text\":\"turn on the light\"\x7d]\x7d\x7d")])])
      (Json.obj [("NewLine", Json.str
        "\x7b\"header\":\x7b\"namespace\":\"SpeechRecognizer\",\"name\":\"RecognizeResult\"\x7d,\"payload\":\x7b\"is_final\":false,\"results\":[\x7b\"text\":\"turn on the light\"\x7d]\x7d\x7d")])
      "\x7b\"header\":\x7b\"namespace\":\"SpeechRecognizer\",\"name\":\"RecognizeResult\"\x7d,\"payload\":\x7b\"is_final\":false,\"results\":[\x7b\"text\":\"turn on the light\"\x7d]\x7d\x7d"
      (Json.obj [("header", Json.obj [("namespace", Json.str "SpeechRecognizer"),
          ("name", Json.str "RecognizeResult")]),
        ("payload", Json.obj [("is_final", Json.bool false),
          ("results", Json.arr [Json.obj [("text", Json.str "turn on the light")]])])])
      rfl rfl rfl rfl (by decide) rfl rfl⟩
